import Mathlib

/-!
Verification of the sLSP4SNFs pipeline (`src/sLSP4SNFs/main.py`).

Shallow embedding conventions:
- Python floats are modelled as `ℚ` (exact arithmetic; all float comparisons
  in the source are direct comparisons of computed values).
- Numpy arrays and pandas columns are modelled as `List ℚ` / lists of rows.
- The external Lomb–Scargle periodogram (`lightkurve.LightCurve.to_periodogram`)
  is not part of this repository; it is modelled as an oracle function parameter
  producing a list of (frequency, power) pairs, possibly failing.
- Fallible Python code returns `Except PyErr`; the `PyErr` constructors mirror
  the Python exception classes actually raised by the source.
- `np.argsort`-based joint sorting of (time, flux) is modelled by a stable
  insertion sort on pairs keyed by the first component.
-/

/-- Python exception classes that the embedded code can raise. -/
inductive PyErr where
  | valueError : PyErr
  | typeError : PyErr
  | runtimeError : String → PyErr
  | attributeError : PyErr
  | fileNotFoundError : PyErr
deriving DecidableEq

/-- One row of the sliding-map DataFrame `self.df`
(columns `time`, `frequency`, `amplitude`; `main.py` lines 151–155). -/
structure Row where
  time : ℚ
  frequency : ℚ
  amplitude : ℚ
deriving DecidableEq

/-- The result of `compute_slsp`: the DataFrame rows plus
`referTimes = np.unique(df["time"])` (`main.py` line 156). -/
structure SlidingMap where
  rows : List Row
  referTimes : List ℚ
deriving DecidableEq

/-- The attributes written by `zoom_frequency` (`main.py` lines 172–193). -/
structure Zoomed where
  targetFreq : ℚ
  deltaF : ℚ
  centerTimes : List ℚ
  centerFreqs : List ℚ
  targetAmp : ℚ
deriving DecidableEq

/-- The object that `self.obj` would have to denote in `_print_summary`
(`main.py` line 279 reads `self.obj.targetFreq`). -/
structure PlotRef where
  targetFreq : ℚ
deriving DecidableEq

/-- Stable insertion of a (time, flux) pair into a list sorted by time. -/
def insertPair (p : ℚ × ℚ) : List (ℚ × ℚ) → List (ℚ × ℚ)
  | [] => [p]
  | q :: t => if p.1 ≤ q.1 then p :: q :: t else q :: insertPair p t

/-- Joint stable sort of (time, flux) pairs by time, modelling
`idx = np.argsort(self.time); self.time = self.time[idx]; self.flux = self.flux[idx]`
(`main.py` lines 73–75). -/
def argsortPairs : List (ℚ × ℚ) → List (ℚ × ℚ)
  | [] => []
  | p :: t => insertPair p (argsortPairs t)

/-- Insertion of a rational into a sorted list of rationals. -/
def insertQ (x : ℚ) : List ℚ → List ℚ
  | [] => [x]
  | y :: t => if x ≤ y then x :: y :: t else y :: insertQ x t

/-- Insertion sort on a list of rationals. -/
def sortQ : List ℚ → List ℚ
  | [] => []
  | x :: t => insertQ x (sortQ t)

/-- Removal of adjacent duplicates from a (sorted) list. -/
def dedupSorted : List ℚ → List ℚ
  | [] => []
  | [x] => [x]
  | x :: y :: t => if x = y then dedupSorted (y :: t) else x :: dedupSorted (y :: t)

/-- `np.unique`: sorted distinct values of a list. -/
def npUnique (l : List ℚ) : List ℚ := dedupSorted (sortQ l)

/-- The session state held by an `SLSP` object after `__init__`
(`main.py` lines 51–68).  `df = none` models the `self.df = None`
initialisation on line 64; `obj = none` records that no code in `SLSP`
ever assigns an `obj` attribute. -/
structure Session where
  time : List ℚ
  flux : List ℚ
  T : ℚ
  t0 : ℚ
  tf : ℚ
  frequency : List ℚ
  amplitude : List ℚ
  df : Option SlidingMap
  obj : Option PlotRef

/-- `SLSP.__init__` (`main.py` lines 51–68): `T = time[-1] - time[0]` is taken
from the raw input (line 53, before `_sort_time_series` on line 67); the arrays
are then jointly sorted by time and `t0`, `tf` are read from the sorted array
(lines 73–76); the global periodogram (external `lightkurve` call, lines
95–98) is an oracle `glsp`, with power scaled by 1000 to ppt. -/
def SLSP.init (time flux : List ℚ) (glsp : List ℚ → List ℚ → List (ℚ × ℚ)) : Session :=
  let T := time.getLastI - time.headI
  let sorted := argsortPairs (time.zip flux)
  let stime := sorted.map Prod.fst
  let sflux := sorted.map Prod.snd
  let pg := glsp stime sflux
  { time := stime
    flux := sflux
    T := T
    t0 := stime.headI
    tf := stime.getLastI
    frequency := pg.map Prod.fst
    amplitude := pg.map (fun p => p.2 * 1000)
    df := none
    obj := none }

/-- The SNF decision state (`main.py` line 297). -/
inductive SnfState where
  | confirmed : SnfState
  | rejected : SnfState
deriving DecidableEq

/-- `SLSP._check_snf_state` (`main.py` lines 291–297):
`isPeriodValid = abs(snfPeriod - 372.0) < 5.0 * sigmaPeriod`,
`isAmpStrong = snfSnr >= 3.0 and snfAmp > 0.01`,
`isTheoryValid = criterion <= 0.3`,
state is Confirmed iff `(isPeriodValid and isAmpStrong) or isTheoryValid`. -/
def check_snf_state (snfPeriod sigmaPeriod snfSnr snfAmp criterion : ℚ) : SnfState :=
  if (|snfPeriod - 372| < 5 * sigmaPeriod ∧ (3 ≤ snfSnr ∧ 1/100 < snfAmp)) ∨ criterion ≤ 3/10
  then SnfState.confirmed else SnfState.rejected

/-- C1: After `analyze_snf` completes its statistics, the result state is
Confirmed iff (|snfPeriod − 372.0| < 5·sigmaPeriod AND (snfSnr ≥ 3.0 AND
snfAmp > 0.01)) OR criterion ≤ 0.3, and Rejected exactly otherwise, with the
constants 372.0, 5.0, 3.0, 0.01, 0.3 fixed. -/
theorem snf_C1_state_decision (snfPeriod sigmaPeriod snfSnr snfAmp criterion : ℚ) :
    (check_snf_state snfPeriod sigmaPeriod snfSnr snfAmp criterion = SnfState.confirmed ↔
      ((|snfPeriod - 372| < 5 * sigmaPeriod ∧ (3 ≤ snfSnr ∧ 1/100 < snfAmp)) ∨
        criterion ≤ 3/10)) ∧
    (check_snf_state snfPeriod sigmaPeriod snfSnr snfAmp criterion = SnfState.rejected ↔
      ¬ ((|snfPeriod - 372| < 5 * sigmaPeriod ∧ (3 ≤ snfSnr ∧ 1/100 < snfAmp)) ∨
        criterion ≤ 3/10)) := by
  unfold check_snf_state
  constructor
  · split <;> simp_all
  · split <;> simp_all

/-- Oracle type for the external per-window Lomb–Scargle periodogram call
(`lcPart.to_periodogram`, `main.py` lines 140–144): given the selected times
and fluxes it either returns (frequency, power) pairs or raises. -/
abbrev PGFun := List ℚ → List ℚ → Except String (List (ℚ × ℚ))

/-- `nSteps = int((self.tf - self.t0 - self.window) // self.step)`
(`main.py` line 128); a negative value yields an empty `range`, modelled by
`Int.toNat`. -/
def slspNumSteps (t0 tf window step : ℚ) : ℕ :=
  (⌊(tf - t0 - window) / step⌋).toNat

/-- `mask = (self.time >= t1) & (self.time < t2)` applied to the (time, flux)
pairs (`main.py` line 135). -/
def windowSel (time flux : List ℚ) (t1 t2 : ℚ) : List (ℚ × ℚ) :=
  (time.zip flux).filter (fun p => decide (t1 ≤ p.1) && decide (p.1 < t2))

/-- Body of one iteration of the sliding-window loop (`main.py` lines 130–149):
empty selections are skipped (`continue`, line 137), per-window periodogram
failures are caught and skipped (lines 148–149), and successful windows emit
rows tagged with `tMid = t1 + window/2` and power scaled by 1000. -/
def perWindow (time flux : List ℚ) (t0 window step : ℚ) (pg : PGFun) (i : ℕ) : List Row :=
  let t1 := t0 + i * step
  let tMid := t1 + window / 2
  let sel := windowSel time flux t1 (t1 + window)
  if sel.isEmpty then []
  else
    match pg (sel.map Prod.fst) (sel.map Prod.snd) with
    | Except.error _ => []
    | Except.ok pairs => pairs.map (fun p => ⟨tMid, p.1, p.2 * 1000⟩)

/-- All rows accumulated by the sliding-window loop (`main.py` lines 127–149). -/
def slspRows (time flux : List ℚ) (t0 tf window step : ℚ) (pg : PGFun) : List Row :=
  ((List.range (slspNumSteps t0 tf window step)).map
    (perWindow time flux t0 window step pg)).flatten

/-- `SLSP.compute_slsp` (`main.py` lines 102–156): raises `ValueError` when the
span is shorter than the window (lines 124–125), otherwise runs the window loop
and stores the rows together with `referTimes = np.unique(df["time"])`. -/
def compute_slsp (time flux : List ℚ) (t0 tf window step : ℚ) (pg : PGFun) :
    Except PyErr SlidingMap :=
  if tf - t0 < window then Except.error PyErr.valueError
  else
    let rows := slspRows time flux t0 tf window step pg
    Except.ok ⟨rows, npUnique (rows.map Row.time)⟩

/-- `compute_slsp` invoked on a session (it reads `self.time`, `self.flux`,
`self.t0`, `self.tf`). -/
def SLSP.computeSlsp (s : Session) (window step : ℚ) (pg : PGFun) : Except PyErr SlidingMap :=
  compute_slsp s.time s.flux s.t0 s.tf window step pg

/-- Number of window blocks of a `compute_slsp` result (distinct
`windowCenterTime` values), `none` when the call raised. -/
def blockCount (r : Except PyErr SlidingMap) : Option ℕ :=
  r.toOption.map (fun m => m.referTimes.length)

/-- Concrete global-periodogram oracle used in concrete evaluations. -/
def gZero : List ℚ → List ℚ → List (ℚ × ℚ) := fun _ _ => []

/-- Concrete per-window periodogram oracle used in concrete evaluations. -/
def pgConst : PGFun := fun _ _ => Except.ok [(1, 1)]

/-- C4 (amended): for every time series whose total span equals the window
length, `compute_slsp` with `window == step == span` passes the span guard but
enumerates `floor((span - window)/step) = 0` windows, so it produces an empty
`SlidingMap` with zero window blocks (no distinct `windowCenterTime`), not
one. -/
theorem snf_C4_single_window (time flux : List ℚ)
    (glsp : List ℚ → List ℚ → List (ℚ × ℚ)) (w : ℚ) (pg : PGFun)
    (hspan : (SLSP.init time flux glsp).tf - (SLSP.init time flux glsp).t0 = w)
    (_hw : 0 < w) :
    SLSP.computeSlsp (SLSP.init time flux glsp) w w pg =
      Except.ok { rows := [], referTimes := [] } := by
  set s := SLSP.init time flux glsp with hs
  have hn : slspNumSteps s.t0 s.tf w w = 0 := by
    unfold slspNumSteps
    rw [hspan, sub_self]
    norm_num
  have hlt : ¬ (s.tf - s.t0 < w) := by rw [hspan]; exact lt_irrefl w
  simp only [SLSP.computeSlsp, compute_slsp, slspRows, hn, List.range_zero,
    List.map_nil, List.flatten_nil, if_neg hlt, npUnique, sortQ, dedupSorted]

/-- Concrete refutation of C4 as stated: the series `[0, 10]` has span 10, and
`compute_slsp` with `window = step = 10` yields zero window blocks, not exactly
one. -/
theorem snf_C4_counterexample :
    (SLSP.init [0, 10] [1, 1] gZero).tf - (SLSP.init [0, 10] [1, 1] gZero).t0 = 10 ∧
    blockCount (SLSP.computeSlsp (SLSP.init [0, 10] [1, 1] gZero) 10 10 pgConst) = some 0 := by
  constructor
  · norm_num [SLSP.init, argsortPairs, insertPair, List.getLastI]
  · norm_num [SLSP.init, argsortPairs, insertPair, SLSP.computeSlsp, compute_slsp,
      slspRows, slspNumSteps, npUnique, sortQ, dedupSorted, blockCount, List.getLastI,
      Except.toOption]

/-- Witness instantiating `snf_C4_single_window` on the concrete series
`[0, 10]` with `window = step = span = 10`. -/
theorem snf_C4_witness :
    (SLSP.init [0, 10] [1, 1] gZero).tf - (SLSP.init [0, 10] [1, 1] gZero).t0 = 10 ∧
    SLSP.computeSlsp (SLSP.init [0, 10] [1, 1] gZero) 10 10 pgConst =
      Except.ok { rows := [], referTimes := [] } := by
  have h : (SLSP.init [0, 10] [1, 1] gZero).tf - (SLSP.init [0, 10] [1, 1] gZero).t0 = 10 := by
    norm_num [SLSP.init, argsortPairs, insertPair, List.getLastI]
  exact ⟨h, snf_C4_single_window [0, 10] [1, 1] gZero 10 pgConst h (by norm_num)⟩

/-- Every row emitted by window `i` carries `windowCenterTime = t1 + window/2`
with `t1 = t0 + i*step` (`main.py` lines 131–133, 145). -/
theorem perWindow_time_eq {time flux : List ℚ} {t0 window step : ℚ} {pg : PGFun} {i : ℕ}
    {r : Row} (h : r ∈ perWindow time flux t0 window step pg i) :
    r.time = t0 + (i : ℚ) * step + window / 2 := by
  simp only [perWindow] at h
  split at h
  · exact absurd h (List.not_mem_nil r)
  · split at h
    · exact absurd h (List.not_mem_nil r)
    · obtain ⟨p, hp, rfl⟩ := List.mem_map.mp h
      rfl

/-- Membership in the accumulated rows comes from one of the enumerated
windows. -/
theorem mem_slspRows {time flux : List ℚ} {t0 tf window step : ℚ} {pg : PGFun} {r : Row} :
    r ∈ slspRows time flux t0 tf window step pg ↔
      ∃ i < slspNumSteps t0 tf window step, r ∈ perWindow time flux t0 window step pg i := by
  simp only [slspRows, List.mem_flatten, List.mem_map, List.mem_range]
  constructor
  · rintro ⟨l, ⟨i, hi, rfl⟩, hr⟩
    exact ⟨i, hi, hr⟩
  · rintro ⟨i, hi, hr⟩
    exact ⟨_, ⟨i, hi, rfl⟩, hr⟩

/-- A flattened list of blocks whose elements carry block-wise constant,
monotone time stamps has non-decreasing time stamps. -/
theorem pairwise_time_flatten (f : ℕ → List Row) (c : ℕ → ℚ)
    (hc : Monotone c) (hf : ∀ i, ∀ r ∈ f i, r.time = c i) (n : ℕ) :
    ((List.range n).map f).flatten.Pairwise (fun a b => a.time ≤ b.time) := by
  induction n with
  | zero => simp
  | succ n ih =>
      rw [List.range_succ, List.map_append, List.flatten_append]
      refine List.pairwise_append.mpr ⟨ih, ?_, ?_⟩
      · simp only [List.map_cons, List.map_nil, List.flatten_cons, List.flatten_nil,
          List.append_nil]
        refine List.pairwise_of_forall_mem_list ?_
        intro a ha b hb
        rw [hf n a ha, hf n b hb]
      · intro a ha b hb
        simp only [List.map_cons, List.map_nil, List.flatten_cons, List.flatten_nil,
          List.append_nil] at hb
        obtain ⟨l, hl, hal⟩ := List.mem_flatten.mp ha
        obtain ⟨i, hi, rfl⟩ := List.mem_map.mp hl
        rw [List.mem_range] at hi
        rw [hf i a hal, hf n b hb]
        exact hc (Nat.le_of_lt hi)

/-- C6: for every series with span ≥ window (and positive step), the sliding
decomposition succeeds, enumerates exactly `floor((span - window)/step)`
windows with the i-th starting at `t0 + i*step`, every emitted row's
`windowCenterTime` equals `start + window/2` for one of those starts, and the
center times are non-decreasing in window order. -/
theorem snf_C6_window_enumeration (s : Session) (window step : ℚ) (pg : PGFun)
    (hspan : window ≤ s.tf - s.t0) (hstep : 0 < step) :
    SLSP.computeSlsp s window step pg =
      Except.ok
        { rows := slspRows s.time s.flux s.t0 s.tf window step pg
          referTimes :=
            npUnique ((slspRows s.time s.flux s.t0 s.tf window step pg).map Row.time) } ∧
    ((slspNumSteps s.t0 s.tf window step : ℤ) = ⌊(s.tf - s.t0 - window) / step⌋) ∧
    (∀ r ∈ slspRows s.time s.flux s.t0 s.tf window step pg,
      ∃ i < slspNumSteps s.t0 s.tf window step,
        r.time = s.t0 + (i : ℚ) * step + window / 2) ∧
    ((slspRows s.time s.flux s.t0 s.tf window step pg).map Row.time).Pairwise (· ≤ ·) := by
  have hguard : ¬ (s.tf - s.t0 < window) := not_lt.mpr hspan
  refine ⟨?_, ?_, ?_, ?_⟩
  · simp only [SLSP.computeSlsp, compute_slsp, if_neg hguard]
  · have h0 : (0 : ℚ) ≤ (s.tf - s.t0 - window) / step :=
      div_nonneg (by linarith) (le_of_lt hstep)
    exact Int.toNat_of_nonneg (Int.le_floor.mpr (by exact_mod_cast h0))
  · intro r hr
    obtain ⟨i, hi, hmem⟩ := mem_slspRows.mp hr
    exact ⟨i, hi, perWindow_time_eq hmem⟩
  · rw [List.pairwise_map]
    apply pairwise_time_flatten (c := fun i => s.t0 + (i : ℚ) * step + window / 2)
    · intro i j hij
      have hcast : (i : ℚ) ≤ (j : ℚ) := by exact_mod_cast hij
      have := mul_le_mul_of_nonneg_right hcast (le_of_lt hstep)
      simp only []
      linarith
    · intro i r hr
      exact perWindow_time_eq hr

/-- Witness instantiating `snf_C6_window_enumeration` on the series `[0, 30]`
with `window = step = 10`; the floor formula evaluates to 2 windows. -/
theorem snf_C6_witness :
    10 ≤ (SLSP.init [0, 30] [1, 1] gZero).tf - (SLSP.init [0, 30] [1, 1] gZero).t0 ∧
    slspNumSteps (SLSP.init [0, 30] [1, 1] gZero).t0 (SLSP.init [0, 30] [1, 1] gZero).tf 10 10 = 2 ∧
    ((slspNumSteps (SLSP.init [0, 30] [1, 1] gZero).t0
        (SLSP.init [0, 30] [1, 1] gZero).tf 10 10 : ℤ) =
      ⌊((SLSP.init [0, 30] [1, 1] gZero).tf - (SLSP.init [0, 30] [1, 1] gZero).t0 - 10) / 10⌋) ∧
    ((slspRows (SLSP.init [0, 30] [1, 1] gZero).time (SLSP.init [0, 30] [1, 1] gZero).flux
        (SLSP.init [0, 30] [1, 1] gZero).t0 (SLSP.init [0, 30] [1, 1] gZero).tf
        10 10 pgConst).map Row.time).Pairwise (· ≤ ·) := by
  have h1 : 10 ≤ (SLSP.init [0, 30] [1, 1] gZero).tf - (SLSP.init [0, 30] [1, 1] gZero).t0 := by
    norm_num [SLSP.init, argsortPairs, insertPair, List.getLastI]
  refine ⟨h1, ?_, (snf_C6_window_enumeration _ 10 10 pgConst h1 (by norm_num)).2.1,
    (snf_C6_window_enumeration _ 10 10 pgConst h1 (by norm_num)).2.2.2⟩
  norm_num [SLSP.init, argsortPairs, insertPair, List.getLastI, slspNumSteps]
  rfl

/-- Concrete per-window oracle that always fails, exercising the
caught-and-skipped branch of the window loop. -/
def pgFail : PGFun := fun _ _ => Except.error "degenerate window"

/-- Rows are only emitted by windows whose sample selection is non-empty and
whose periodogram call succeeded (`main.py` lines 136–149). -/
theorem perWindow_nonempty_ok {time flux : List ℚ} {t0 window step : ℚ} {pg : PGFun}
    {i : ℕ} {r : Row} (h : r ∈ perWindow time flux t0 window step pg i) :
    windowSel time flux (t0 + (i : ℚ) * step) (t0 + (i : ℚ) * step + window) ≠ [] ∧
    (pg ((windowSel time flux (t0 + (i : ℚ) * step) (t0 + (i : ℚ) * step + window)).map Prod.fst)
        ((windowSel time flux (t0 + (i : ℚ) * step) (t0 + (i : ℚ) * step + window)).map Prod.snd)).isOk
      = true := by
  simp only [perWindow] at h
  split at h
  · exact absurd h (List.not_mem_nil r)
  · rename_i hsel
    rw [List.isEmpty_iff] at hsel
    split at h
    · exact absurd h (List.not_mem_nil r)
    · rename_i pairs heq
      exact ⟨hsel, by rw [heq]; rfl⟩

/-- C7: during sliding decomposition (span ≥ window), the overall computation
succeeds for every per-window periodogram oracle, including always-failing
ones; a window with empty selection or a failed periodogram emits no row and
raises no error, so every emitted row comes from a window with non-empty
selection whose periodogram call succeeded. -/
theorem snf_C7_partial_failure (s : Session) (window step : ℚ) (pg : PGFun)
    (hspan : window ≤ s.tf - s.t0) :
    SLSP.computeSlsp s window step pg =
      Except.ok
        { rows := slspRows s.time s.flux s.t0 s.tf window step pg
          referTimes :=
            npUnique ((slspRows s.time s.flux s.t0 s.tf window step pg).map Row.time) } ∧
    (∀ r ∈ slspRows s.time s.flux s.t0 s.tf window step pg,
      ∃ i < slspNumSteps s.t0 s.tf window step,
        windowSel s.time s.flux (s.t0 + (i : ℚ) * step) (s.t0 + (i : ℚ) * step + window) ≠ [] ∧
        (pg ((windowSel s.time s.flux (s.t0 + (i : ℚ) * step)
                (s.t0 + (i : ℚ) * step + window)).map Prod.fst)
            ((windowSel s.time s.flux (s.t0 + (i : ℚ) * step)
                (s.t0 + (i : ℚ) * step + window)).map Prod.snd)).isOk = true) := by
  have hguard : ¬ (s.tf - s.t0 < window) := not_lt.mpr hspan
  refine ⟨by simp only [SLSP.computeSlsp, compute_slsp, if_neg hguard], ?_⟩
  intro r hr
  obtain ⟨i, hi, hmem⟩ := mem_slspRows.mp hr
  exact ⟨i, hi, perWindow_nonempty_ok hmem⟩

/-- Witness instantiating `snf_C7_partial_failure` on the series `[0, 30]`
with an always-failing periodogram oracle: the decomposition still returns
successfully, with no rows. -/
theorem snf_C7_witness :
    10 ≤ (SLSP.init [0, 30] [1, 1] gZero).tf - (SLSP.init [0, 30] [1, 1] gZero).t0 ∧
    SLSP.computeSlsp (SLSP.init [0, 30] [1, 1] gZero) 10 10 pgFail =
      Except.ok
        { rows := slspRows (SLSP.init [0, 30] [1, 1] gZero).time
            (SLSP.init [0, 30] [1, 1] gZero).flux (SLSP.init [0, 30] [1, 1] gZero).t0
            (SLSP.init [0, 30] [1, 1] gZero).tf 10 10 pgFail
          referTimes := npUnique ((slspRows (SLSP.init [0, 30] [1, 1] gZero).time
            (SLSP.init [0, 30] [1, 1] gZero).flux (SLSP.init [0, 30] [1, 1] gZero).t0
            (SLSP.init [0, 30] [1, 1] gZero).tf 10 10 pgFail).map Row.time) } ∧
    slspRows (SLSP.init [0, 30] [1, 1] gZero).time (SLSP.init [0, 30] [1, 1] gZero).flux
      (SLSP.init [0, 30] [1, 1] gZero).t0 (SLSP.init [0, 30] [1, 1] gZero).tf
      10 10 pgFail = [] := by
  have h1 : 10 ≤ (SLSP.init [0, 30] [1, 1] gZero).tf - (SLSP.init [0, 30] [1, 1] gZero).t0 := by
    norm_num [SLSP.init, argsortPairs, insertPair, List.getLastI]
  refine ⟨h1, (snf_C7_partial_failure _ 10 10 pgFail h1).1, ?_⟩
  norm_num [SLSP.init, argsortPairs, insertPair, List.getLastI, slspRows, slspNumSteps,
    perWindow, windowSel, pgFail, List.range_succ]

/-- `idxmax` of the `amplitude` column within one groupby group
(`main.py` line 183): first row attaining the maximal amplitude, `none` for an
empty group. -/
def firstMaxRow : List Row → Option Row
  | [] => none
  | h :: t => some (t.foldl (fun b r => if b.amplitude < r.amplitude then r else b) h)

/-- `np.max` over a non-empty list (its value on `[]` is irrelevant: the
source raises there, which the embedding handles separately). -/
def maxQ : List ℚ → ℚ
  | [] => 0
  | h :: t => t.foldl max h

/-- The sliding-map band filter `(df["frequency"] >= freq - deltaF) &
(df["frequency"] <= freq + deltaF)` (`main.py` lines 175–179). -/
def bandFilterRows (df : List Row) (freq deltaF : ℚ) : List Row :=
  df.filter (fun r => decide (freq - deltaF ≤ r.frequency) && decide (r.frequency ≤ freq + deltaF))

/-- `SLSP.zoom_frequency` body (`main.py` lines 172–193): band-filter the
sliding map, group the zoomed rows by time (pandas sorts the group keys
ascending) and take each group's first maximal-amplitude row as the ridge;
then take the maximum of the global periodogram amplitude restricted to the
band — `np.max` of an empty selection raises `ValueError`, which is the only
raise in this method. -/
def zoom_frequency (dfRows : List Row) (frequency amplitude : List ℚ) (freq deltaF : ℚ) :
    Except PyErr Zoomed :=
  let dfZoom := bandFilterRows dfRows freq deltaF
  let keys := npUnique (dfZoom.map Row.time)
  let picks := keys.filterMap (fun t => firstMaxRow (dfZoom.filter (fun r => decide (r.time = t))))
  let band := (frequency.zip amplitude).filter
      (fun p => decide (freq - deltaF ≤ p.1) && decide (p.1 ≤ freq + deltaF))
  if band.isEmpty then Except.error PyErr.valueError
  else
    Except.ok
      { targetFreq := freq
        deltaF := deltaF
        centerTimes := picks.map Row.time
        centerFreqs := picks.map Row.frequency
        targetAmp := maxQ (band.map Prod.snd) }

/-- Concrete refutation of C5 as stated: a sliding map whose single row (at
frequency 5) lies outside the band `[0.9, 1.1]`, with a global periodogram
point inside the band: `zoom_frequency` returns successfully with an empty
ridge instead of failing with a band-empty error. -/
theorem snf_C5_counterexample :
    bandFilterRows [Row.mk 0 5 1] 1 (1/10) = [] ∧
    zoom_frequency [Row.mk 0 5 1] [1] [2] 1 (1/10) =
      Except.ok
        { targetFreq := 1, deltaF := 1/10, centerTimes := [], centerFreqs := [], targetAmp := 2 } := by
  constructor
  · norm_num [bandFilterRows]
  · norm_num [zoom_frequency, bandFilterRows, npUnique, sortQ, dedupSorted, firstMaxRow, maxQ]

/-- C5 (amended): when no SlidingMap row has frequency within
`[targetFreq - deltaF, targetFreq + deltaF]`, `zoom_frequency` raises no
band-empty error: it produces an empty ridge (`centerTimes = centerFreqs =
[]`); it raises only the untyped numpy `ValueError` from `np.max` of an empty
selection, and that happens exactly when the *global* periodogram also has no
frequency in the band. -/
theorem snf_C5_empty_band (dfRows : List Row) (frequency amplitude : List ℚ) (freq deltaF : ℚ)
    (hempty : bandFilterRows dfRows freq deltaF = []) :
    ((frequency.zip amplitude).filter
        (fun p => decide (freq - deltaF ≤ p.1) && decide (p.1 ≤ freq + deltaF)) = [] →
      zoom_frequency dfRows frequency amplitude freq deltaF = Except.error PyErr.valueError) ∧
    (∀ z, zoom_frequency dfRows frequency amplitude freq deltaF = Except.ok z →
      z.centerTimes = [] ∧ z.centerFreqs = []) := by
  constructor
  · intro hband
    simp only [zoom_frequency, hband, List.isEmpty_nil, if_true]
  · intro z hz
    simp only [zoom_frequency, hempty, List.map_nil, npUnique, sortQ, dedupSorted,
      List.filterMap_nil] at hz
    split at hz
    · exact absurd hz (by simp)
    · cases hz
      exact ⟨rfl, rfl⟩

/-- Witness instantiating `snf_C5_empty_band` on a concrete sliding map with
no row in the band and a global periodogram also empty in the band: the call
raises the numpy `ValueError`, not a band-specific error. -/
theorem snf_C5_witness :
    bandFilterRows [Row.mk 0 5 1] 1 (1/10) = [] ∧
    zoom_frequency [Row.mk 0 5 1] [5] [2] 1 (1/10) = Except.error PyErr.valueError := by
  have hemp : bandFilterRows [Row.mk 0 5 1] 1 (1/10) = [] := by norm_num [bandFilterRows]
  refine ⟨hemp, (snf_C5_empty_band [Row.mk 0 5 1] [5] [2] 1 (1/10) hemp).1 ?_⟩
  norm_num

/-- `hasattr(self, "df")` for a constructed session: `__init__` assigns
`self.df = None` unconditionally (`main.py` line 64), so the attribute exists
on every `SLSP` object whether or not `compute_slsp` has run. -/
def hasattr_df (_ : Session) : Bool := true

/-- `SLSP._check_dependency("df", "compute_slsp()")` (`main.py` lines
352–355): raises `RuntimeError` only when the attribute is absent. -/
def check_dependency_df (s : Session) : Except PyErr Unit :=
  if hasattr_df s then Except.ok ()
  else Except.error (PyErr.runtimeError "Run compute_slsp() before this step.")

/-- `SLSP.zoom_frequency` as invoked on a session (`main.py` lines 160–193):
the dependency check on line 171, then the subscript `self.df["frequency"]`,
which raises `TypeError` when `self.df` is still `None`. -/
def SLSP.zoomFrequency (s : Session) (freq deltaF : ℚ) : Except PyErr Zoomed := do
  let _ ← check_dependency_df s
  match s.df with
  | none => Except.error PyErr.typeError
  | some m => zoom_frequency m.rows s.frequency s.amplitude freq deltaF

/-- `SLSP.analyze_snf` entry (`main.py` lines 224–225): the dependency check
followed by `self.zoom_frequency(freq, deltaF)`; the remainder of the analysis
(simulation match, statistics, decision, summary) is abstracted as `rest`,
which is reached only when the zoom succeeded. -/
def SLSP.analyzeSnf (s : Session) (freq deltaF : ℚ)
    (rest : Zoomed → Except PyErr SnfState) : Except PyErr SnfState := do
  let _ ← check_dependency_df s
  let z ← SLSP.zoomFrequency s freq deltaF
  rest z

/-- C2 (refuted; the code contradicts the intent of `_check_dependency`): on a
session on which `compute_slsp` has not run, `hasattr(self, "df")` is
nevertheless true because `__init__` set `self.df = None`, so both
`zoom_frequency` and `analyze_snf` pass the prerequisite guard and then fail
with `TypeError` (`None` is not subscriptable) — which is not the
`RuntimeError` (`PrerequisiteError`) naming the missing step. -/
theorem snf_C2_prerequisite_bug (time flux : List ℚ)
    (glsp : List ℚ → List ℚ → List (ℚ × ℚ)) (freq deltaF : ℚ)
    (rest : Zoomed → Except PyErr SnfState) :
    hasattr_df (SLSP.init time flux glsp) = true ∧
    SLSP.zoomFrequency (SLSP.init time flux glsp) freq deltaF = Except.error PyErr.typeError ∧
    SLSP.analyzeSnf (SLSP.init time flux glsp) freq deltaF rest = Except.error PyErr.typeError ∧
    (∀ msg : String, PyErr.typeError ≠ PyErr.runtimeError msg) := by
  refine ⟨rfl, rfl, rfl, fun msg h => PyErr.noConfusion h⟩

/-- `SLSP._print_summary` (`main.py` lines 267–288): after the fixed header,
the SUCCESS/REJECTED message interpolates `self.obj.targetFreq`; an `SLSP`
object has no `obj` attribute (no method of the class ever assigns one), so
the access raises `AttributeError` before any SUCCESS/REJECTED line is
printed.  On a hypothetical object carrying `obj`, the emitted line and the
reported frequency are returned. -/
def print_summary (snfState : SnfState) (obj : Option PlotRef) : Except PyErr (String × ℚ) :=
  match obj with
  | none => Except.error PyErr.attributeError
  | some o =>
    match snfState with
    | SnfState.confirmed =>
        Except.ok ("SUCCESS: The target is identified as a Super-Nyquist Frequency (SNF).",
          o.targetFreq)
    | SnfState.rejected =>
        Except.ok ("REJECTED: The target is NOT an SNF.", o.targetFreq)

/-- C3 (refuted; code slip contradicting the documented reporting behavior):
every `SLSP` session has no `obj` attribute, so `_print_summary` always raises
`AttributeError` instead of emitting the SUCCESS/REJECTED summary line with
the target frequency — regardless of the decision state. -/
theorem snf_C3_summary_bug (time flux : List ℚ)
    (glsp : List ℚ → List ℚ → List (ℚ × ℚ)) (st : SnfState) :
    (SLSP.init time flux glsp).obj = none ∧
    print_summary st (SLSP.init time flux glsp).obj = Except.error PyErr.attributeError := by
  exact ⟨rfl, rfl⟩

/-- `np.argmin`: index of the first minimal element of a list
(`idx = np.argmin(np.abs(self.snfSimulateTime - t))`, `main.py` line 315). -/
def argminIdx : List ℚ → ℕ
  | [] => 0
  | [_] => 0
  | x :: y :: t =>
    if x ≤ (y :: t).getD (argminIdx (y :: t)) 0 then 0 else argminIdx (y :: t) + 1

/-- The matching loop of `SLSP._load_sim_data` (`main.py` lines 313–318): for
each ridge time, pick the simulated frequency at the reference-table index of
minimal absolute time distance. -/
def matchReference (simTime simFreq : List ℚ) (ts : List ℚ) : List ℚ :=
  ts.map (fun t => simFreq.getD (argminIdx (simTime.map (fun s => |s - t|))) 0)

/-- `argminIdx` returns a valid index attaining the minimum, and every earlier
index holds a strictly larger value (first-minimal tie-break, as `np.argmin`). -/
theorem argminIdx_spec (l : List ℚ) :
    l ≠ [] →
      argminIdx l < l.length ∧
      (∀ k < l.length, l.getD (argminIdx l) 0 ≤ l.getD k 0) ∧
      (∀ k < argminIdx l, l.getD (argminIdx l) 0 < l.getD k 0) := by
  induction l with
  | nil => intro h; exact absurd rfl h
  | cons x t ih =>
      intro _
      cases t with
      | nil =>
          refine ⟨by simp [argminIdx], ?_, ?_⟩
          · intro k hk
            have hk0 : k = 0 := by simpa [argminIdx] using Nat.lt_one_iff.mp (by simpa using hk)
            subst hk0
            simp [argminIdx]
          · intro k hk
            simp [argminIdx] at hk
      | cons y t2 =>
          obtain ⟨ih1, ih2, ih3⟩ := ih (by simp)
          by_cases hx : x ≤ (y :: t2).getD (argminIdx (y :: t2)) 0
          · have ha : argminIdx (x :: y :: t2) = 0 := by
              simp only [argminIdx, if_pos hx]
            refine ⟨by simp [ha], ?_, ?_⟩
            · intro k hk
              cases k with
              | zero => simp [ha]
              | succ k2 =>
                  simp only [ha, List.getD_cons_zero, List.getD_cons_succ]
                  exact le_trans hx (ih2 k2 (by simpa using hk))
            · intro k hk
              rw [ha] at hk
              exact absurd hk (Nat.not_lt_zero k)
          · have ha : argminIdx (x :: y :: t2) = argminIdx (y :: t2) + 1 := by
              simp only [argminIdx, if_neg hx]
            push_neg at hx
            refine ⟨?_, ?_, ?_⟩
            · rw [ha, List.length_cons, List.length_cons]
              exact Nat.succ_lt_succ ih1
            · intro k hk
              cases k with
              | zero =>
                  simp only [ha, List.getD_cons_succ, List.getD_cons_zero]
                  exact le_of_lt hx
              | succ k2 =>
                  simp only [ha, List.getD_cons_succ]
                  exact ih2 k2 (by simpa using hk)
            · intro k hk
              cases k with
              | zero =>
                  simp only [ha, List.getD_cons_succ, List.getD_cons_zero]
                  exact hx
              | succ k2 =>
                  simp only [ha, List.getD_cons_succ]
                  refine ih3 k2 ?_
                  rw [ha] at hk
                  omega

/-- Distances through `map` in terms of the original table entries. -/
theorem getD_map_abs (l : List ℚ) (t : ℚ) (k : ℕ) (hk : k < l.length) :
    (l.map (fun s => |s - t|)).getD k 0 = |l.getD k 0 - t| := by
  rw [List.getD_eq_getElem _ 0 (by simpa using hk), List.getD_eq_getElem _ 0 hk,
    List.getElem_map]

/-- C8: reference matching assigns to every ridge time the reference-table
entry whose `simTime` has minimal absolute distance to it, with ties broken by
the first minimal index; in particular, for table times [0, 10, 20] and query
time 14 the entry at time 10 (here the second frequency, 8) is selected. -/
theorem snf_C8_nearest_reference (simTime simFreq : List ℚ) (t : ℚ) (hne : simTime ≠ []) :
    argminIdx (simTime.map (fun s => |s - t|)) < simTime.length ∧
    (∀ k < simTime.length,
      |simTime.getD (argminIdx (simTime.map (fun s => |s - t|))) 0 - t| ≤
        |simTime.getD k 0 - t|) ∧
    (∀ k < argminIdx (simTime.map (fun s => |s - t|)),
      |simTime.getD (argminIdx (simTime.map (fun s => |s - t|))) 0 - t| <
        |simTime.getD k 0 - t|) ∧
    matchReference simTime simFreq [t] =
      [simFreq.getD (argminIdx (simTime.map (fun s => |s - t|))) 0] ∧
    matchReference [0, 10, 20] [7, 8, 9] [14] = [8] := by
  have hmne : simTime.map (fun s => |s - t|) ≠ [] := by
    cases simTime with
    | nil => exact absurd rfl hne
    | cons a l => simp
  obtain ⟨h1, h2, h3⟩ := argminIdx_spec _ hmne
  rw [List.length_map] at h1
  refine ⟨h1, ?_, ?_, by simp [matchReference], ?_⟩
  · intro k hk
    have h := h2 k (by simpa using hk)
    rwa [getD_map_abs _ _ _ h1, getD_map_abs _ _ _ hk] at h
  · intro k hk
    have hkl : k < simTime.length := lt_trans hk h1
    have h := h3 k hk
    rwa [getD_map_abs _ _ _ h1, getD_map_abs _ _ _ hkl] at h
  · norm_num [matchReference, argminIdx]

/-- Witness instantiating `snf_C8_nearest_reference` on the spec's example:
table times [0, 10, 20], query 14; the selected index is 1 (time 10). -/
theorem snf_C8_witness :
    ([(0:ℚ), 10, 20] ≠ ([] : List ℚ)) ∧
    argminIdx ([(0:ℚ), 10, 20].map (fun s => |s - 14|)) = 1 ∧
    matchReference [0, 10, 20] [7, 8, 9] [14] = [8] := by
  refine ⟨by simp, ?_,
    (snf_C8_nearest_reference [0, 10, 20] [7, 8, 9] 14 (by simp)).2.2.2.2⟩
  norm_num [argminIdx]

/-- `np.round` to an integer: round half to even (banker's rounding). -/
def roundHalfEven (q : ℚ) : ℤ :=
  let f := ⌊q⌋
  if q - f < 1/2 then f
  else if 1/2 < q - f then f + 1
  else if f % 2 = 0 then f else f + 1

/-- `np.round(x, 5)`: rounding to five decimal places. -/
def np_round5 (q : ℚ) : ℚ := (roundHalfEven (q * 100000) : ℚ) / 100000

/-- `residual = np.abs((self.centerFreqs - self.targetFreq) * 1000.0 - 2.0 * self.snfs)`
(`main.py` lines 239–241), in nHz. -/
def snfResidual (centerFreqs : List ℚ) (targetFreq : ℚ) (snfs : List ℚ) : List ℚ :=
  List.zipWith (fun cf s => |(cf - targetFreq) * 1000 - 2 * s|) centerFreqs snfs

/-- `np.nanmean` over values that are all finite (the ℚ embedding carries no
NaN; `np.nanmean` ignores exactly the NaN entries). -/
def nanmean (l : List ℚ) : ℚ := l.sum / l.length

/-- `self.criterion = np.round(np.nanmean(residual) / 32.0, 5)`
(`main.py` line 243). -/
def snfCriterion (centerFreqs : List ℚ) (targetFreq : ℚ) (snfs : List ℚ) : ℚ :=
  np_round5 (nanmean (snfResidual centerFreqs targetFreq snfs) / 32)

/-- Elementwise description of the residual array. -/
theorem snfResidual_getD (cf snfs : List ℚ) (f : ℚ) (hlen : cf.length = snfs.length)
    (i : ℕ) (hi : i < cf.length) :
    (snfResidual cf f snfs).getD i 0 = |(cf.getD i 0 - f) * 1000 - 2 * snfs.getD i 0| := by
  have hi2 : i < snfs.length := hlen ▸ hi
  have hiz : i < (snfResidual cf f snfs).length := by
    simp only [snfResidual, List.length_zipWith]
    omega
  rw [List.getD_eq_getElem _ 0 hiz, List.getD_eq_getElem _ 0 hi, List.getD_eq_getElem _ 0 hi2]
  simp [snfResidual, List.getElem_zipWith]

/-- A list sum as a sum over its index range. -/
theorem list_sum_eq_range_getD (l : List ℚ) :
    l.sum = ∑ i in Finset.range l.length, l.getD i 0 := by
  induction l with
  | nil => simp
  | cons x t ih =>
      rw [List.sum_cons, List.length_cons, Finset.sum_range_succ']
      simp only [List.getD_cons_succ, List.getD_cons_zero]
      rw [← ih]
      ring

/-- C9: in the evaluated-state computation,
`residual[i] = |(centerFreqs[i] - targetFreq)*1000 - 2*nearestSimFreqs[i]|`
(nHz), and the criterion equals the mean of the residuals divided by 32,
rounded to 5 decimal places. -/
theorem snf_C9_residual_criterion (cf snfs : List ℚ) (f : ℚ)
    (hlen : cf.length = snfs.length) :
    (∀ i < cf.length,
      (snfResidual cf f snfs).getD i 0 =
        |(cf.getD i 0 - f) * 1000 - 2 * snfs.getD i 0|) ∧
    snfCriterion cf f snfs =
      np_round5 ((∑ i in Finset.range cf.length,
          |(cf.getD i 0 - f) * 1000 - 2 * snfs.getD i 0|) / cf.length / 32) := by
  have hres : ∀ i < cf.length,
      (snfResidual cf f snfs).getD i 0 =
        |(cf.getD i 0 - f) * 1000 - 2 * snfs.getD i 0| :=
    fun i hi => snfResidual_getD cf snfs f hlen i hi
  refine ⟨hres, ?_⟩
  have hlz : (snfResidual cf f snfs).length = cf.length := by
    simp only [snfResidual, List.length_zipWith]
    omega
  have hmean : nanmean (snfResidual cf f snfs) =
      (∑ i in Finset.range cf.length,
        |(cf.getD i 0 - f) * 1000 - 2 * snfs.getD i 0|) / cf.length := by
    unfold nanmean
    rw [list_sum_eq_range_getD, hlz]
    congr 1
    exact Finset.sum_congr rfl fun i hi => hres i (Finset.mem_range.mp hi)
  unfold snfCriterion
  rw [hmean]

/-- Witness instantiating `snf_C9_residual_criterion` on
`centerFreqs = [100, 101]`, `targetFreq = 100`, `snfs = [3, 4]`: the residuals
are [6, 992], and the criterion is 499/32 = 15.59375 exactly. -/
theorem snf_C9_witness :
    ([(100:ℚ), 101].length = [(3:ℚ), 4].length) ∧
    snfCriterion [100, 101] 100 [3, 4] =
      np_round5 ((∑ i in Finset.range ([(100:ℚ), 101].length),
        |(([(100:ℚ), 101].getD i 0 - 100)) * 1000 - 2 * [(3:ℚ), 4].getD i 0|) /
        ([(100:ℚ), 101].length) / 32) ∧
    snfCriterion [100, 101] 100 [3, 4] = 499/32 := by
  refine ⟨rfl, (snf_C9_residual_criterion [100, 101] [3, 4] 100 rfl).2, ?_⟩
  norm_num [snfCriterion, nanmean, snfResidual, np_round5, roundHalfEven]

/-- Inserting a pair permutes the cons. -/
theorem insertPair_perm (p : ℚ × ℚ) (l : List (ℚ × ℚ)) : (insertPair p l).Perm (p :: l) := by
  induction l with
  | nil => exact List.Perm.refl _
  | cons q t ih =>
      unfold insertPair
      split
      · exact List.Perm.refl _
      · exact (List.Perm.cons q ih).trans (List.Perm.swap p q t)

/-- The joint sort is a permutation of its input pairs. -/
theorem argsortPairs_perm (l : List (ℚ × ℚ)) : (argsortPairs l).Perm l := by
  induction l with
  | nil => exact List.Perm.refl _
  | cons p t ih =>
      exact (insertPair_perm p (argsortPairs t)).trans (List.Perm.cons p ih)

/-- Insertion preserves sortedness by the time key. -/
theorem insertPair_sorted (p : ℚ × ℚ) (l : List (ℚ × ℚ))
    (h : l.Pairwise (fun a b => a.1 ≤ b.1)) :
    (insertPair p l).Pairwise (fun a b => a.1 ≤ b.1) := by
  induction l with
  | nil => simp [insertPair]
  | cons q t ih =>
      obtain ⟨hq, ht⟩ := List.pairwise_cons.mp h
      unfold insertPair
      split
      · rename_i hle
        refine List.pairwise_cons.mpr ⟨?_, h⟩
        intro x hx
        rcases List.mem_cons.mp hx with hxq | hxt
        · rw [hxq]; exact hle
        · exact le_trans hle (hq x hxt)
      · rename_i hgt
        push_neg at hgt
        refine List.pairwise_cons.mpr ⟨?_, ih ht⟩
        intro x hx
        have hmem : x ∈ p :: t := (insertPair_perm p t).mem_iff.mp hx
        rcases List.mem_cons.mp hmem with hxp | hxt
        · rw [hxp]; exact le_of_lt hgt
        · exact hq x hxt

/-- The joint sort is sorted by the time key. -/
theorem argsortPairs_sorted (l : List (ℚ × ℚ)) :
    (argsortPairs l).Pairwise (fun a b => a.1 ≤ b.1) := by
  induction l with
  | nil => simp [argsortPairs]
  | cons p t ih => exact insertPair_sorted p (argsortPairs t) ih

/-- Re-zipping the projections of a pair list recovers it. -/
theorem zip_map_fst_snd (l : List (ℚ × ℚ)) : (l.map Prod.fst).zip (l.map Prod.snd) = l := by
  induction l with
  | nil => rfl
  | cons p t ih => simp [ih]

/-- `sigmaFreq = sqrt(3) * sigmaAmp / (snfAmp * pi * T)`
(`SLSP._estimate_errors`, `main.py` lines 344–348), with the irrational float
constants √3 and π abstracted as parameters of the ℚ embedding
(`sigmaAmp = snfNoise`, line 344). -/
def sigmaFreq_of (sqrt3 pi snfNoise snfAmp T : ℚ) : ℚ :=
  sqrt3 * snfNoise / (snfAmp * pi * T)

/-- `_estimate_errors` reads `self.T`, the span stored by `__init__` before
sorting (`main.py` lines 53 and 345–348). -/
def SLSP.estimateSigmaFreq (s : Session) (sqrt3 pi snfNoise snfAmp : ℚ) : ℚ :=
  sigmaFreq_of sqrt3 pi snfNoise snfAmp s.T

/-- C10: the constructor sorts both arrays jointly into ascending time order,
but the stored span `T` is the raw input's last time minus its first time,
computed before sorting; for the unsorted input `time = [10, 0]` this `T` is
−10, the negation of the sorted span `tf − t0 = 10`, and it is this pre-sort
`T` that enters the `sigmaFreq` error estimate (flipping its sign relative to
using the sorted span). -/
theorem snf_C10_presort_span (time flux : List ℚ)
    (glsp : List ℚ → List ℚ → List (ℚ × ℚ)) (sqrt3 pi n a : ℚ) :
    (SLSP.init time flux glsp).T = time.getLastI - time.headI ∧
    ((SLSP.init time flux glsp).time).Pairwise (· ≤ ·) ∧
    (((SLSP.init time flux glsp).time.zip (SLSP.init time flux glsp).flux).Perm
      (time.zip flux)) ∧
    (SLSP.init [10, 0] [1, 2] glsp).T = -10 ∧
    (SLSP.init [10, 0] [1, 2] glsp).tf - (SLSP.init [10, 0] [1, 2] glsp).t0 = 10 ∧
    (SLSP.init [10, 0] [1, 2] glsp).T =
      -((SLSP.init [10, 0] [1, 2] glsp).tf - (SLSP.init [10, 0] [1, 2] glsp).t0) ∧
    (SLSP.init [10, 0] [1, 2] glsp).T ≠
      (SLSP.init [10, 0] [1, 2] glsp).tf - (SLSP.init [10, 0] [1, 2] glsp).t0 ∧
    SLSP.estimateSigmaFreq (SLSP.init [10, 0] [1, 2] glsp) sqrt3 pi n a =
      -(sigmaFreq_of sqrt3 pi n a
        ((SLSP.init [10, 0] [1, 2] glsp).tf - (SLSP.init [10, 0] [1, 2] glsp).t0)) := by
  have hT : (SLSP.init [10, 0] [1, 2] glsp).T = -10 := by
    norm_num [SLSP.init, List.getLastI]
  have hspan : (SLSP.init [10, 0] [1, 2] glsp).tf - (SLSP.init [10, 0] [1, 2] glsp).t0 = 10 := by
    norm_num [SLSP.init, argsortPairs, insertPair, List.getLastI]
  refine ⟨rfl, ?_, ?_, hT, hspan, ?_, ?_, ?_⟩
  · simp only [SLSP.init]
    rw [List.pairwise_map]
    exact argsortPairs_sorted (time.zip flux)
  · simp only [SLSP.init]
    rw [zip_map_fst_snd]
    exact argsortPairs_perm (time.zip flux)
  · rw [hT, hspan]
  · rw [hT, hspan]; norm_num
  · rw [SLSP.estimateSigmaFreq, hT, hspan]
    unfold sigmaFreq_of
    rw [show a * pi * (-10 : ℚ) = -(a * pi * 10) by ring, div_neg]
